import Mathlib

/-!
Verification of the NEPSE alert bot signal engine (`nepse_alert_bot.py`).

The Python source is shallowly embedded here: closing prices, traded
quantities and sentiment scores are modelled as rationals, fallible
operations as `Option`, and the external collaborators (the VADER
sentiment analyzer, the regular-expression engine, the float square
root and the market/news HTTP clients) as explicit function
parameters.  All definitions follow the source line by line.
-/

namespace NepseBot

/-- Python `l[-n:]` for `n > 0`: the last `min n (length l)` elements. -/
def lastN (n : Nat) (l : List α) : List α := l.drop (l.length - n)

/-- Successive differences `data[i] - data[i-1]` for `i` in `1 .. len-1`,
from line 73 of the source. -/
def deltas : List ℚ → List ℚ
  | [] => []
  | [_] => []
  | a :: b :: rest => (b - a) :: deltas (b :: rest)

/-- Source `gains = [d if d > 0 else 0 for d in deltas]` (line 74). -/
def gainsOf (ds : List ℚ) : List ℚ := ds.map (fun d => if 0 < d then d else 0)

/-- Source `losses = [-d if d < 0 else 0 for d in deltas]` (line 75). -/
def lossesOf (ds : List ℚ) : List ℚ := ds.map (fun d => if d < 0 then -d else 0)

/-- One iteration of the Wilder smoothing loop (lines 78-80), applied
to the running `(avg_gain, avg_loss)` pair and the current
`(gains[i], losses[i])` pair. -/
def wilderStep (periods : ℕ) (a : ℚ × ℚ) (gl : ℚ × ℚ) : ℚ × ℚ :=
  ((a.1 * ((periods : ℚ) - 1) + gl.1) / (periods : ℚ),
   (a.2 * ((periods : ℚ) - 1) + gl.2) / (periods : ℚ))

/-- The smoothed `(avg_gain, avg_loss)` pair of `calculate_rsi`
(lines 76-80): the seed simple means over the first `periods` gains and
losses, followed by the Wilder smoothing loop over the remaining
deltas, applied left to right exactly as the `for` loop does. -/
def rsiAvgs (data : List ℚ) (periods : ℕ) : ℚ × ℚ :=
  let ds := deltas data
  let gains := gainsOf ds
  let losses := lossesOf ds
  let seed : ℚ × ℚ :=
    ((gains.take periods).sum / (periods : ℚ), (losses.take periods).sum / (periods : ℚ))
  ((gains.drop periods).zip (losses.drop periods)).foldl (wilderStep periods) seed

/-- Function `calculate_rsi` (lines 70-84): `None` when fewer than `periods`
points, otherwise the RSI from the smoothed averages, with the
`avg_loss == 0` guard returning 100. -/
def calculate_rsi (data : List ℚ) (periods : ℕ) : Option ℚ :=
  if data.length < periods then none
  else
    let ag := (rsiAvgs data periods).1
    let al := (rsiAvgs data periods).2
    if al = 0 then some 100
    else some (100 - 100 / (1 + ag / al))

/-- One row of `stock_data`: `{'symbol': ..., 'closingPrice': ...}`. -/
structure StockRec where
  symbol : String
  closingPrice : ℚ
deriving DecidableEq

/-- One row of `historical_data`:
`{'symbol': ..., 'closingPrice': ..., 'totalTradeQuantity': ...}`. -/
structure HistRec where
  symbol : String
  closingPrice : ℚ
  totalTradeQuantity : ℚ
deriving DecidableEq

/-- The `mock_stock_data` literal of `fetch_nepse_data` (lines 56-59). -/
def mock_stock_data : List StockRec :=
  [⟨"MOCK1", 100⟩, ⟨"MOCK2", 200⟩]

/-- The `mock_historical_data` literal of `fetch_nepse_data` (lines 60-65). -/
def mock_historical_data : List HistRec :=
  [⟨"MOCK1", 95, 1000⟩, ⟨"MOCK1", 98, 1200⟩, ⟨"MOCK2", 190, 800⟩, ⟨"MOCK2", 195, 900⟩]

/-- The retry loop of `fetch_nepse_data` (lines 41-68), with the outcome
of each attempt (the `try` block around the market-client awaits) given
as a function of the attempt index: a successful attempt returns its
snapshot straight away; a failed attempt that is not the last one
retries; the last failed attempt returns the mock data.  When the
function runs out of attempts without ever reaching the fallback branch
(`max_retries == 0`) the Python function falls off the loop and returns
`None`. -/
def fetchGo (outcome : ℕ → Option (List StockRec × List HistRec)) (attempt : ℕ) :
    ℕ → Option (List StockRec × List HistRec)
  | 0 => none
  | remaining + 1 =>
    match outcome attempt with
    | some snap => some snap
    | none =>
      if remaining = 0 then some (mock_stock_data, mock_historical_data)
      else fetchGo outcome (attempt + 1) remaining

/-- Function `fetch_nepse_data(max_retries=3, delay=5)` (lines 39-68), starting
the loop at attempt 0. -/
def fetch_nepse_data (outcome : ℕ → Option (List StockRec × List HistRec))
    (max_retries : ℕ) : Option (List StockRec × List HistRec) :=
  fetchGo outcome 0 max_retries

/-- Source `[h for h in historical_data if h['symbol'] == stock_name]`
(lines 115, 121, 135, 172). -/
def filterSym (symbol : String) (hist : List HistRec) : List HistRec :=
  hist.filter (fun h => h.symbol == symbol)

/-- Source `sum(l) / len(l) if l else 0`, the guarded-average idiom used for
the moving average (line 117) and for sentiment means (lines 98, 130). -/
def avgOr0 (l : List ℚ) : ℚ := if l = [] then 0 else l.sum / (l.length : ℚ)

/-- Simple returns `(p[i] - p[i-1]) / p[i-1]` (lines 137, 177). -/
def returnsOf : List ℚ → List ℚ
  | [] => []
  | [_] => []
  | a :: b :: rest => (b - a) / a :: returnsOf (b :: rest)

/-- Mean and population variance of the returns, with the
`if returns else 0` guards of lines 138-139. -/
def varianceOfReturns (rs : List ℚ) : ℚ :=
  let mean_return := if rs = [] then 0 else rs.sum / (rs.length : ℚ)
  if rs = [] then 0 else (rs.map (fun r => (r - mean_return) ^ 2)).sum / (rs.length : ℚ)

/-- The volatility of lines 137-140: `(variance ** 0.5) * 100 if
variance else 0`.  The float square root is a black box, passed in as
`sq`; it is never consulted when the variance is zero because of the
Python truthiness guard. -/
def volatilityOf (sq : ℚ → ℚ) (prices : List ℚ) : ℚ :=
  let variance := varianceOfReturns (returnsOf prices)
  if variance ≠ 0 then sq variance * 100 else 0

/-- The volume-spike computation of lines 142-145 (repeated verbatim at
lines 182-185): `avg_volume = sum(volumes[-10:]) / 10 if volumes else 0`,
`latest_volume` is the last quantity (0 for an empty history), and the
flag is `latest_volume > avg_volume * 1.5`. -/
def volume_spike_calc (historical : List HistRec) : Bool :=
  let volumes := historical.map (fun h => h.totalTradeQuantity)
  let avg_volume : ℚ := if volumes = [] then 0 else (lastN 10 volumes).sum / 10
  let latest_volume : ℚ :=
    match historical.getLast? with
    | some h => h.totalTradeQuantity
    | none => 0
  decide (avg_volume * (3 / 2) < latest_volume)

/-- The pair returned by `fetch_news(stock_name)` on its non-exception
path (lines 86-100): the scraped headline texts, or the literal
placeholder list when the scrape found nothing, together with the
`is_dangerous` flag computed from the average VADER compound score of
the scraped texts.  The VADER analyzer is a black box `scorer`. -/
structure FetchedNews where
  texts : List String
  is_dangerous : Bool
deriving DecidableEq

/-- Function `fetch_news` (lines 86-100), success path. -/
def fetch_news (scorer : String → ℚ) (scraped : List String) : FetchedNews :=
  if scraped = [] then ⟨["No recent news found."], false⟩
  else ⟨scraped, decide (avgOr0 (scraped.map scorer) < -(1 : ℚ) / 2)⟩

/-- The per-stock record appended by `analyze_stock` (lines 147-160). -/
structure Analysis where
  name : String
  fundamental_score : ℚ
  technical_score : ℚ
  rsi : ℚ
  ma_trend : String
  sentiment : ℚ
  recommendation : String
  news : List String
  is_dangerous : Bool
  current_price : ℚ
  volatility : ℚ
  volume_spike : Bool
deriving DecidableEq

/-- The body of the `for stock in stock_data[:10]` loop of
`analyze_stock` (lines 110-160) for one stock, with the black boxes
(the square root `sq`, the VADER scorer, and the headlines scraped for
this symbol) passed in. -/
def analyzeStock (sq : ℚ → ℚ) (scorer : String → ℚ) (scraped : List String)
    (symbol : String) (currentPrice : ℚ) (historical_data : List HistRec) : Analysis :=
  let fundamental_score : ℚ := 1 / 2
  let historical := lastN 10 (filterSym symbol historical_data)
  let closing_prices_ma := historical.map (fun h => h.closingPrice)
  let ma_10 := avgOr0 closing_prices_ma
  let ma_trend := if ma_10 < currentPrice then "Above MA" else "Below MA"
  let historical_rsi := lastN 14 (filterSym symbol historical_data)
  let closing_prices_rsi := historical_rsi.map (fun h => h.closingPrice)
  let rsi0 := if closing_prices_rsi = [] then none else calculate_rsi closing_prices_rsi 14
  let rsi := rsi0.getD 50
  let technical_score : ℚ := if rsi < 30 ∨ 70 < rsi then 7 / 10 else 1 / 2
  let fn := fetch_news scorer scraped
  let news_sentiments := fn.texts.map scorer
  let avg_sentiment := avgOr0 news_sentiments
  let recommendation :=
    if 3 / 5 < technical_score ∧ 0 < avg_sentiment then "Buy" else "No Buy"
  let historical_vol := lastN 30 (filterSym symbol historical_data)
  let closing_prices_vol := historical_vol.map (fun h => h.closingPrice)
  let volatility := volatilityOf sq closing_prices_vol
  let volume_spike := volume_spike_calc historical_vol
  { name := symbol
    fundamental_score := fundamental_score
    technical_score := technical_score
    rsi := rsi
    ma_trend := ma_trend
    sentiment := avg_sentiment
    recommendation := recommendation
    news := fn.texts
    is_dangerous := fn.is_dangerous
    current_price := currentPrice
    volatility := volatility
    volume_spike := volume_spike }

/-- Function `analyze_stock(stock_data, historical_data)` (lines 105-163): one
`Analysis` per stock among the first ten, the scraped headlines being a
function of the symbol queried by `fetch_news(stock_name)`. -/
def analyze_stock (sq : ℚ → ℚ) (scorer : String → ℚ) (scraped : String → List String)
    (stock_data : List StockRec) (historical_data : List HistRec) : List Analysis :=
  (stock_data.take 10).map
    (fun st => analyzeStock sq scorer (scraped st.symbol) st.symbol st.closingPrice historical_data)

/-- The projected record appended by `identify_good_opportunities`
(lines 212-221). -/
structure GoodOpp where
  name : String
  rsi : ℚ
  ma_trend : String
  sentiment : ℚ
  volatility : ℚ
  volume_spike : Bool
  current_price : ℚ
  news : List String
deriving DecidableEq

/-- The five-way conjunction of lines 207-211. -/
def oppCond (s : Analysis) : Bool :=
  decide (s.rsi < 30) && (s.ma_trend == "Above MA") && decide ((3 : ℚ) / 10 < s.sentiment)
    && decide ((5 : ℚ) < s.volatility) && s.volume_spike

/-- The projection of lines 212-221. -/
def oppProj (s : Analysis) : GoodOpp :=
  ⟨s.name, s.rsi, s.ma_trend, s.sentiment, s.volatility, s.volume_spike, s.current_price, s.news⟩

/-- Function `identify_good_opportunities(analysis_results)` (lines 204-222). -/
def identify_good_opportunities (analysis_results : List Analysis) : List GoodOpp :=
  (analysis_results.filter oppCond).map oppProj

/-- The `NEWS_KEYWORDS` regular-expression pattern list (lines 519-536),
kept as the literal pattern strings; the regex engine itself is a black
box `matches` parameter wherever the patterns are applied. -/
def NEWS_KEYWORDS : List String :=
  ["dividend declaration",
   "bonus share",
   "rights issue",
   "merger",
   "share buyback",
   "quarterly results",
   "net profit",
   "earnings per share|EPS",
   "revised guidance",
   "trading halt",
   "SEBON guidelines",
   "IPO",
   "rate hike",
   "inflation data",
   "GDP growth",
   "due diligence",
   "definitive agreement",
   "rumor",
   "insider trading",
   "upgrade",
   "circuit breaker",
   "floorsheet anomaly",
   "‡§Æ‡•Å‡§®‡§æ‡§´‡§æ",
   "‡§¨‡•ã‡§®‡§∏",
   "‡§π‡§ï‡§™‡•ç‡§∞‡§¶"]

/-- The `NEWS_EXPLANATIONS` table (lines 539-565).  Python dicts keep
insertion order, so the table is modelled as an association list in the
order the source writes it. -/
def NEWS_EXPLANATIONS : List (String × String) :=
  [("dividend declaration", "This may increase stock demand due to expected payouts."),
   ("bonus share", "This increases the number of shares, potentially boosting liquidity."),
   ("rights issue", "Shareholders can buy more shares, often at a discount, affecting price."),
   ("merger", "Mergers can lead to synergies but may also introduce uncertainty."),
   ("share buyback", "This reduces outstanding shares, often signaling confidence."),
   ("quarterly results", "Results can drive volatility based on performance."),
   ("net profit", "Higher profits typically boost stock price."),
   ("earnings per share|EPS", "EPS reflects profitability per share, a key metric."),
   ("revised guidance", "Guidance changes can shift investor expectations."),
   ("trading halt", "Halts pause trading, often due to major news."),
   ("SEBON guidelines", "Regulatory changes can impact market operations."),
   ("IPO", "New listings can attract investor interest."),
   ("rate hike", "Higher rates may reduce borrowing, impacting growth stocks."),
   ("inflation data", "Inflation affects purchasing power and interest rates."),
   ("GDP growth", "Economic growth can boost market confidence."),
   ("due diligence", "A step in M&A, indicating a deal is progressing."),
   ("definitive agreement", "A confirmed deal, often leading to price movements."),
   ("rumor", "Rumors can drive short-term volatility."),
   ("insider trading", "Insider activity may signal confidence or concern."),
   ("upgrade", "Analyst upgrades often lead to price increases."),
   ("circuit breaker", "Trading pauses to prevent extreme volatility."),
   ("floorsheet anomaly", "Unusual trading activity may indicate manipulation."),
   ("‡§Æ‡•Å‡§®‡§æ‡§´‡§æ", "Higher profits typically boost stock price."),
   ("‡§¨‡•ã‡§®‡§∏", "This increases the number of shares, potentially boosting liquidity."),
   ("‡§π‡§ï‡§™‡•ç‡§∞‡§¶", "Shareholders can buy more shares, often at a discount.")]

/-- A relevant news item as built by `analyze_news` (lines 588-592). -/
structure NewsItem where
  text : String
  sentiment : ℚ
  keywords : String
deriving DecidableEq

/-- The inner `for keyword in NEWS_KEYWORDS` loop of `analyze_news`
(lines 585-593): the first pattern that matches the text wins (the
`break`), scanning the keyword list left to right. -/
def scanKeywords (rmatch : String → String → Bool) :
    List String → String → Option String
  | [], _ => none
  | k :: ks, text => if rmatch k text then some k else scanKeywords rmatch ks text

/-- Function `analyze_news(news_texts)` (lines 580-594) over an arbitrary
keyword list: each text contributes one `NewsItem` tagged with its
first matching keyword, or nothing when no keyword matches. -/
def analyzeNewsWith (rmatch : String → String → Bool) (scorer : String → ℚ)
    (keywords : List String) : List String → List NewsItem
  | [] => []
  | text :: rest =>
    match scanKeywords rmatch keywords text with
    | some k => ⟨text, scorer text, k⟩ :: analyzeNewsWith rmatch scorer keywords rest
    | none => analyzeNewsWith rmatch scorer keywords rest

/-- Function `analyze_news` as the source calls it, over `NEWS_KEYWORDS`. -/
def analyze_news (rmatch : String → String → Bool) (scorer : String → ℚ)
    (news_texts : List String) : List NewsItem :=
  analyzeNewsWith rmatch scorer NEWS_KEYWORDS news_texts

/-- The generic fallback rationale of line 679. -/
def fallback_explanation : String := "This news may impact the stock."

/-- The generator scan inside the `next(...)` call of line 679: the
value of the first table entry whose key pattern matches the text. -/
def scanPairs (rmatch : String → String → Bool) :
    List (String × String) → String → Option String
  | [], _ => none
  | p :: rest, text => if rmatch p.1 text then some p.2 else scanPairs rmatch rest text

/-- The explanation attached to a rendered news item (line 679):
`next((NEWS_EXPLANATIONS[key] for key in NEWS_EXPLANATIONS if
re.search(key, item[...], re.IGNORECASE)), "This news may impact the
stock.")`. -/
def explanationFor (rmatch : String → String → Bool) (text : String) : String :=
  match scanPairs rmatch NEWS_EXPLANATIONS text with
  | some e => e
  | none => fallback_explanation

/-- The lookup the specification describes: the table entry for the
matched keyword itself, with the fallback for an unmapped keyword. -/
def lookupExplanation (k : String) : String :=
  match (NEWS_EXPLANATIONS.find? (fun p => p.1 == k)).map (fun p => p.2) with
  | some e => e
  | none => fallback_explanation

/-! Section: Helper lemmas -/

theorem lastN_length_le (n : ℕ) (l : List α) : (lastN n l).length ≤ n := by
  simp only [lastN, List.length_drop]
  omega

theorem lastN_of_length_le (n : ℕ) (l : List α) (h : l.length ≤ n) : lastN n l = l := by
  simp [lastN, Nat.sub_eq_zero_of_le h]

theorem lastN_map (f : α → β) (n : ℕ) (l : List α) :
    lastN n (l.map f) = (lastN n l).map f := by
  simp [lastN, List.map_drop]

theorem deltas_length : ∀ l : List ℚ, (deltas l).length = l.length - 1
  | [] => rfl
  | [_] => rfl
  | a :: b :: rest => by
    simp [deltas, deltas_length (b :: rest)]

theorem fetchGo_all_fail (outcome : ℕ → Option (List StockRec × List HistRec))
    (h : ∀ i, outcome i = none) :
    ∀ fuel, 1 ≤ fuel → ∀ attempt,
      fetchGo outcome attempt fuel = some (mock_stock_data, mock_historical_data) := by
  intro fuel
  induction fuel with
  | zero => omega
  | succ n ih =>
    intro _ attempt
    rw [fetchGo, h attempt]
    by_cases hn : n = 0
    · simp [hn]
    · simp only [hn, if_false]
      exact ih (by omega) (attempt + 1)

theorem gainsOf_nonneg (ds : List ℚ) : ∀ x ∈ gainsOf ds, 0 ≤ x := by
  intro x hx
  simp only [gainsOf, List.mem_map] at hx
  obtain ⟨d, _, rfl⟩ := hx
  split
  · linarith
  · exact le_refl 0

theorem lossesOf_nonneg (ds : List ℚ) : ∀ x ∈ lossesOf ds, 0 ≤ x := by
  intro x hx
  simp only [lossesOf, List.mem_map] at hx
  obtain ⟨d, _, rfl⟩ := hx
  split
  · linarith
  · exact le_refl 0

theorem wilderStep_nonneg (periods : ℕ) (hp : 1 ≤ periods) (a gl : ℚ × ℚ)
    (ha1 : 0 ≤ a.1) (ha2 : 0 ≤ a.2) (hg1 : 0 ≤ gl.1) (hg2 : 0 ≤ gl.2) :
    0 ≤ (wilderStep periods a gl).1 ∧ 0 ≤ (wilderStep periods a gl).2 := by
  have hper : (1 : ℚ) ≤ (periods : ℚ) := by exact_mod_cast hp
  constructor <;>
    exact div_nonneg (by nlinarith) (by linarith)

theorem wilderFold_nonneg (periods : ℕ) (hp : 1 ≤ periods) :
    ∀ (l : List (ℚ × ℚ)) (a : ℚ × ℚ), (∀ p ∈ l, 0 ≤ p.1 ∧ 0 ≤ p.2) →
      0 ≤ a.1 → 0 ≤ a.2 →
      0 ≤ (l.foldl (wilderStep periods) a).1 ∧ 0 ≤ (l.foldl (wilderStep periods) a).2 := by
  intro l
  induction l with
  | nil => intro a _ h1 h2; exact ⟨h1, h2⟩
  | cons p rest ih =>
    intro a hmem h1 h2
    have hp0 := hmem p (List.mem_cons_self p rest)
    have hstep := wilderStep_nonneg periods hp a p h1 h2 hp0.1 hp0.2
    exact ih (wilderStep periods a p)
      (fun q hq => hmem q (List.mem_cons_of_mem p hq)) hstep.1 hstep.2

theorem rsiAvgs_nonneg (data : List ℚ) (periods : ℕ) (hp : 1 ≤ periods) :
    0 ≤ (rsiAvgs data periods).1 ∧ 0 ≤ (rsiAvgs data periods).2 := by
  have hper : (0 : ℚ) ≤ (periods : ℚ) := by positivity
  have hseed1 : 0 ≤ ((gainsOf (deltas data)).take periods).sum / (periods : ℚ) :=
    div_nonneg (List.sum_nonneg fun x hx =>
      gainsOf_nonneg (deltas data) x (List.mem_of_mem_take hx)) hper
  have hseed2 : 0 ≤ ((lossesOf (deltas data)).take periods).sum / (periods : ℚ) :=
    div_nonneg (List.sum_nonneg fun x hx =>
      lossesOf_nonneg (deltas data) x (List.mem_of_mem_take hx)) hper
  refine wilderFold_nonneg periods hp _ _ ?_ hseed1 hseed2
  intro p hp'
  have h1 := List.of_mem_zip hp'
  exact ⟨gainsOf_nonneg (deltas data) p.1 (List.mem_of_mem_drop h1.1),
    lossesOf_nonneg (deltas data) p.2 (List.mem_of_mem_drop h1.2)⟩

/-! Section: Claim C1 (corrected) -/

/-- Counterexample to claim C1 as stated: a sequence of exactly
`period` = 14 points has fewer than `period + 1` points, yet
`calculate_rsi` does not return the undefined sentinel on it — the
source guard at line 71 tests `len(data) < periods`, not
`len(data) < periods + 1`. -/
theorem rsi_fourteen_points_defined :
    (List.replicate 14 (1 : ℚ)).length < 14 + 1 ∧
    calculate_rsi (List.replicate 14 (1 : ℚ)) 14 ≠ none ∧
    calculate_rsi (List.replicate 14 (1 : ℚ)) 14 = some 100 := by
  have h100 : calculate_rsi (List.replicate 14 (1 : ℚ)) 14 = some 100 := by
    norm_num [calculate_rsi, rsiAvgs, deltas, gainsOf, lossesOf, List.replicate]
  exact ⟨by norm_num, by rw [h100]; simp, h100⟩

/-- Claim C1 as amended: `calculate_rsi` returns the undefined sentinel
exactly when the sequence has fewer than `period` points (period 14),
and whenever it returns a number that number lies in `[0, 100]`. -/
theorem rsi_none_iff_short_and_bounded (data : List ℚ) :
    (calculate_rsi data 14 = none ↔ data.length < 14) ∧
    (∀ x, calculate_rsi data 14 = some x → 0 ≤ x ∧ x ≤ 100) := by
  constructor
  · by_cases h : data.length < 14
    · simp [calculate_rsi, h]
    · simp only [calculate_rsi, h, if_false]
      split <;> simp [h]
  · intro x hx
    by_cases h : data.length < 14
    · simp [calculate_rsi, h] at hx
    · have havg := rsiAvgs_nonneg data 14 (by norm_num)
      simp only [calculate_rsi, h, if_false] at hx
      by_cases h0 : (rsiAvgs data 14).2 = 0
      · simp only [h0, if_true, Option.some.injEq] at hx
        norm_num [← hx]
      · simp only [h0, if_false, Option.some.injEq] at hx
        have hpos : 0 < (rsiAvgs data 14).2 := lt_of_le_of_ne havg.2 (Ne.symm h0)
        have hrs : 0 ≤ (rsiAvgs data 14).1 / (rsiAvgs data 14).2 :=
          div_nonneg havg.1 (le_of_lt hpos)
        have hone : (1 : ℚ) ≤ 1 + (rsiAvgs data 14).1 / (rsiAvgs data 14).2 := by linarith
        have hle : (100 : ℚ) / (1 + (rsiAvgs data 14).1 / (rsiAvgs data 14).2) ≤ 100 :=
          div_le_self (by norm_num) hone
        have hge : (0 : ℚ) ≤ 100 / (1 + (rsiAvgs data 14).1 / (rsiAvgs data 14).2) :=
          div_nonneg (by norm_num) (by linarith)
        subst hx
        constructor <;> linarith

/-- Witness for C1: the iff and the bound instantiated on the
fourteen-point constant sequence, where the RSI is the defined value
100. -/
theorem rsi_none_iff_short_and_bounded_witness :
    (calculate_rsi (List.replicate 14 (1 : ℚ)) 14 = none ↔
      (List.replicate 14 (1 : ℚ)).length < 14) ∧
    (0 ≤ (100 : ℚ) ∧ (100 : ℚ) ≤ 100) := by
  refine ⟨(rsi_none_iff_short_and_bounded (List.replicate 14 1)).1, ?_⟩
  exact (rsi_none_iff_short_and_bounded (List.replicate 14 1)).2 100
    (by norm_num [calculate_rsi, rsiAvgs, deltas, gainsOf, lossesOf, List.replicate])

/-! Section: Claim C2 -/

/-- Claim C2: when every one of the `max_retries` fetch attempts fails,
`fetch_nepse_data` does not propagate the failure: the cycle still gets
a snapshot, namely the clearly-labeled mock dataset returned after the
last failed attempt. -/
theorem fetch_fallback_on_total_failure
    (outcome : ℕ → Option (List StockRec × List HistRec)) (max_retries : ℕ)
    (hfail : ∀ i, outcome i = none) (hpos : 1 ≤ max_retries) :
    fetch_nepse_data outcome max_retries = some (mock_stock_data, mock_historical_data) :=
  fetchGo_all_fail outcome hfail max_retries hpos 0

/-- Witness for C2 at the default three retries, all failing. -/
theorem fetch_fallback_on_total_failure_witness :
    fetch_nepse_data (fun _ => none) 3 = some (mock_stock_data, mock_historical_data) :=
  fetch_fallback_on_total_failure (fun _ => none) 3 (fun _ => rfl) (by norm_num)

/-! Section: Claim C5 -/

/-- Claim C5: whenever the smoothed average loss is exactly 0,
`calculate_rsi` returns exactly 100, and the quotient
`avg_gain / avg_loss` is only ever formed on the branch where
`avg_loss ≠ 0` holds. -/
theorem rsi_zero_loss_guard (data : List ℚ) (periods : ℕ)
    (hlen : ¬ data.length < periods) :
    ((rsiAvgs data periods).2 = 0 → calculate_rsi data periods = some 100) ∧
    ((rsiAvgs data periods).2 ≠ 0 →
      calculate_rsi data periods =
        some (100 - 100 / (1 + (rsiAvgs data periods).1 / (rsiAvgs data periods).2))) := by
  constructor <;> intro h0 <;> simp [calculate_rsi, hlen, h0]

/-- Witness for C5 on fourteen identical closing prices: every delta is
zero, so the smoothed average loss is zero and the result is 100. -/
theorem rsi_zero_loss_guard_witness :
    (rsiAvgs (List.replicate 14 (1 : ℚ)) 14).2 = 0 ∧
    calculate_rsi (List.replicate 14 (1 : ℚ)) 14 = some 100 := by
  have hz : (rsiAvgs (List.replicate 14 (1 : ℚ)) 14).2 = 0 := by
    norm_num [rsiAvgs, deltas, gainsOf, lossesOf, List.replicate]
  exact ⟨hz, (rsi_zero_loss_guard (List.replicate 14 (1 : ℚ)) 14 (by norm_num)).1 hz⟩

/-! Section: Claim C3 -/

/-- Claim C3: a record appears in `identify_good_opportunities` exactly
when its source analysis satisfies all five conditions — `rsi < 30`,
`ma_trend == "Above MA"`, `sentiment > 0.3`, `volatility > 5` and
`volume_spike`; an analysis whose RSI was undefined and substituted
with the neutral 50 never passes, and `analyze_stock` substitutes 50
precisely on histories too short for the RSI (such as the two-point
MOCK1 history). -/
theorem good_opportunities_membership :
    (∀ (rs : List Analysis) (o : GoodOpp),
       o ∈ identify_good_opportunities rs ↔
         ∃ s ∈ rs, s.rsi < 30 ∧ s.ma_trend = "Above MA" ∧ (3 : ℚ) / 10 < s.sentiment ∧
           (5 : ℚ) < s.volatility ∧ s.volume_spike = true ∧ o = oppProj s) ∧
    (∀ s : Analysis, s.rsi = 50 → oppCond s = false) ∧
    (∀ (sq : ℚ → ℚ) (scorer : String → ℚ) (scraped : List String) (symbol : String)
       (currentPrice : ℚ) (historical_data : List HistRec),
       (filterSym symbol historical_data).length < 14 →
       (analyzeStock sq scorer scraped symbol currentPrice historical_data).rsi = 50) := by
  refine ⟨?_, ?_, ?_⟩
  · intro rs o
    simp only [identify_good_opportunities, List.mem_map, List.mem_filter, oppCond,
      Bool.and_eq_true, decide_eq_true_eq, beq_iff_eq]
    constructor
    · rintro ⟨s, ⟨hmem, ⟨⟨⟨⟨h1, h2⟩, h3⟩, h4⟩, h5⟩⟩, rfl⟩
      exact ⟨s, hmem, h1, h2, h3, h4, h5, rfl⟩
    · rintro ⟨s, hmem, h1, h2, h3, h4, h5, rfl⟩
      exact ⟨s, ⟨hmem, ⟨⟨⟨⟨h1, h2⟩, h3⟩, h4⟩, h5⟩⟩, rfl⟩
  · intro s h
    simp only [oppCond, h]
    norm_num
  · intro sq scorer scraped symbol currentPrice historical_data hlen
    have hlast : lastN 14 (filterSym symbol historical_data) =
        filterSym symbol historical_data :=
      lastN_of_length_le 14 _ (by omega)
    simp only [analyzeStock, hlast]
    by_cases hcl : (filterSym symbol historical_data).map (fun h => h.closingPrice) = []
    · simp [hcl]
    · have hlen' : ((filterSym symbol historical_data).map
          (fun h => h.closingPrice)).length < 14 := by
        simpa using hlen
      simp [hcl, calculate_rsi, hlen', hlen]

/-- Witness for C3: a concrete analysis satisfying all five conditions
is in the output; one with the neutral RSI 50 fails the condition; and
`analyzeStock` on the two-point MOCK1 history reports RSI 50. -/
theorem good_opportunities_membership_witness :
    (oppProj ⟨"GOOD", 1/2, 7/10, 20, "Above MA", 2/5, "Buy", [], false, 99, 6, true⟩ ∈
      identify_good_opportunities
        [⟨"GOOD", 1/2, 7/10, 20, "Above MA", 2/5, "Buy", [], false, 99, 6, true⟩]) ∧
    oppCond ⟨"FLAT", 1/2, 1/2, 50, "Above MA", 2/5, "Buy", [], false, 99, 6, true⟩ = false ∧
    (analyzeStock (fun q => q) (fun _ => 0) [] "MOCK1" 100
      [⟨"MOCK1", 95, 1000⟩, ⟨"MOCK1", 98, 1200⟩]).rsi = 50 := by
  refine ⟨?_, ?_, ?_⟩
  · exact (good_opportunities_membership.1 _ _).2
      ⟨_, List.mem_singleton.2 rfl, by norm_num, rfl, by norm_num, by norm_num, rfl, rfl⟩
  · exact good_opportunities_membership.2.1 _ rfl
  · exact good_opportunities_membership.2.2 (fun q => q) (fun _ => 0) [] "MOCK1" 100
      [⟨"MOCK1", 95, 1000⟩, ⟨"MOCK1", 98, 1200⟩] (by simp [filterSym])

/-! Section: Claim C4 (corrected) -/

/-- The latest traded quantity (`historical[-1]`), 0 when empty. -/
def lastVolume (historical : List HistRec) : ℚ :=
  match historical.getLast? with
  | some h => h.totalTradeQuantity
  | none => 0

/-- The volume-spike rule as claim C4 words it: the most recent traded
quantity must exceed 1.5 times the arithmetic mean of the previous (up
to 10) traded quantities, the mean ranging over however many previous
quantities are available, and an empty history yields false. -/
def volumeSpikeSpec (historical : List HistRec) : Bool :=
  match historical.getLast? with
  | none => false
  | some lastRec =>
    let prev := historical.dropLast.map (fun h => h.totalTradeQuantity)
    let window := lastN 10 prev
    let mean : ℚ := if window = [] then 0 else window.sum / (window.length : ℚ)
    decide (mean * (3 / 2) < lastRec.totalTradeQuantity)

/-- Counterexample to claim C4 as stated: on a two-point history with
equal quantities 1000 the code flags a spike (it divides the trailing
sum by the constant 10 and includes the latest quantity in the window),
while the claimed rule — 1.5 times the mean of the previous quantities
— does not (1000 is not greater than 1.5 × 1000). -/
theorem volume_spike_two_equal_volumes :
    volume_spike_calc [⟨"S", 100, 1000⟩, ⟨"S", 100, 1000⟩] = true ∧
    volumeSpikeSpec [⟨"S", 100, 1000⟩, ⟨"S", 100, 1000⟩] = false := by
  constructor <;> simp [volume_spike_calc, volumeSpikeSpec, lastN, lastVolume] <;> norm_num

/-- Claim C4 as amended: the flag is true exactly when the latest
traded quantity exceeds 1.5 times the sum of the last (up to 10)
traded quantities — the latest included — divided by the constant 10;
a history with zero points yields false. -/
theorem volume_spike_characterization (historical : List HistRec) :
    (historical = [] → volume_spike_calc historical = false) ∧
    (volume_spike_calc historical = true ↔
      ((lastN 10 (historical.map (fun h => h.totalTradeQuantity))).sum / 10) * (3 / 2)
        < lastVolume historical) := by
  constructor
  · rintro rfl
    simp [volume_spike_calc, lastVolume, lastN]
  · by_cases hemp : historical = []
    · subst hemp
      simp [volume_spike_calc, lastVolume, lastN]
    · have hmap : historical.map (fun h => h.totalTradeQuantity) ≠ [] := by
        simpa using hemp
      simp only [volume_spike_calc, lastVolume, hmap, if_false, decide_eq_true_eq]

/-- Witness for C4 (amended) on the two-point history of the
counterexample: both sides of the characterization hold there. -/
theorem volume_spike_characterization_witness :
    (volume_spike_calc [⟨"S", 100, 1000⟩, ⟨"S", 100, 1000⟩] = true ↔
      ((lastN 10 ([⟨"S", 100, 1000⟩, ⟨"S", 100, 1000⟩].map
        (fun h : HistRec => h.totalTradeQuantity))).sum / 10) * (3 / 2)
        < lastVolume [⟨"S", 100, 1000⟩, ⟨"S", 100, 1000⟩]) ∧
    volume_spike_calc [] = false :=
  ⟨(volume_spike_characterization [⟨"S", 100, 1000⟩, ⟨"S", 100, 1000⟩]).2,
   (volume_spike_characterization []).1 rfl⟩

/-! Section: Claim C6 -/

/-- Claim C6: the Dangerous predicate (`avgSentiment < -0.5`) and the
Opportunity predicate (which requires `avgSentiment > 0.3`) exclude
each other, so a symbol whose average news sentiment is below -0.5 is
never classified an opportunity, and — whenever any headlines were
actually scraped for it — `analyze_stock` does mark it dangerous. -/
theorem dangerous_never_opportunity :
    (∀ (rs : List Analysis) (o : GoodOpp),
       o ∈ identify_good_opportunities rs → o.sentiment < -(1 : ℚ) / 2 → False) ∧
    (∀ (sq : ℚ → ℚ) (scorer : String → ℚ) (scraped : String → List String)
       (stock_data : List StockRec) (historical_data : List HistRec) (s : Analysis),
       s ∈ analyze_stock sq scorer scraped stock_data historical_data →
       s.sentiment < -(1 : ℚ) / 2 →
       oppCond s = false ∧ (scraped s.name ≠ [] → s.is_dangerous = true)) := by
  constructor
  · intro rs o hmem hneg
    simp only [identify_good_opportunities, List.mem_map, List.mem_filter, oppCond,
      Bool.and_eq_true, decide_eq_true_eq] at hmem
    obtain ⟨s, ⟨_, ⟨⟨⟨⟨_, _⟩, hsent⟩, _⟩, _⟩⟩, rfl⟩ := hmem
    simp only [oppProj] at hneg
    linarith
  · intro sq scorer scraped stock_data historical_data s hmem hneg
    simp only [analyze_stock, List.mem_map] at hmem
    obtain ⟨st, _, rfl⟩ := hmem
    constructor
    · have : ¬ ((3 : ℚ) / 10 <
          (analyzeStock sq scorer (scraped st.symbol) st.symbol st.closingPrice
            historical_data).sentiment) := by linarith
      simp only [oppCond, this, decide_False]
      simp
    · intro hne
      have hname : (analyzeStock sq scorer (scraped st.symbol) st.symbol st.closingPrice
          historical_data).name = st.symbol := rfl
      rw [hname] at hne
      have hsent : (analyzeStock sq scorer (scraped st.symbol) st.symbol st.closingPrice
          historical_data).sentiment =
          avgOr0 ((scraped st.symbol).map scorer) := by
        simp [analyzeStock, fetch_news, hne]
      rw [hsent] at hneg
      show (fetch_news scorer (scraped st.symbol)).is_dangerous = true
      simp only [fetch_news, if_neg hne]
      exact decide_eq_true hneg

/-- Witness for C6: a concrete opportunity record shows the first
implication fires only on satisfiable premises, and a concrete stock
whose single headline scores -1 is marked dangerous and fails the
opportunity condition. -/
theorem dangerous_never_opportunity_witness :
    (oppCond (analyzeStock (fun q => q) (fun _ => -1) ["terrible crash"] "A" 100 []) = false ∧
      ((fun _ : String => ["terrible crash"]) "A" ≠ [] →
        (analyzeStock (fun q => q) (fun _ => -1) ["terrible crash"] "A" 100 []).is_dangerous =
          true)) := by
  have hmem : analyzeStock (fun q => q) (fun _ => -1) ["terrible crash"] "A" 100 [] ∈
      analyze_stock (fun q => q) (fun _ => -1) (fun _ => ["terrible crash"])
        [⟨"A", 100⟩] [] := by
    simp [analyze_stock]
  have hsent : (analyzeStock (fun q => q) (fun _ => -1) ["terrible crash"] "A" 100
      []).sentiment < -(1 : ℚ) / 2 := by
    norm_num [analyzeStock, fetch_news, avgOr0]
  have hname : (analyzeStock (fun q => q) (fun _ => -1) ["terrible crash"] "A" 100
      []).name = "A" := rfl
  have h := dangerous_never_opportunity.2 (fun q => q) (fun _ => -1)
    (fun _ => ["terrible crash"]) [⟨"A", 100⟩] [] _ hmem hsent
  exact ⟨h.1, by rw [hname] at h; exact h.2⟩

/-! Section: Claim C8 -/

theorem returnsOf_map_mul (c : ℚ) (hc : c ≠ 0) :
    ∀ l : List ℚ, returnsOf (l.map (fun p => c * p)) = returnsOf l
  | [] => rfl
  | [_] => rfl
  | a :: b :: rest => by
    have htail : returnsOf ((b :: rest).map (fun p => c * p)) = returnsOf (b :: rest) :=
      returnsOf_map_mul c hc (b :: rest)
    simp only [List.map_cons] at htail ⊢
    rw [returnsOf, returnsOf, htail]
    congr 1
    rw [show c * b - c * a = c * (b - a) by ring, mul_div_mul_left _ _ hc]

theorem varianceOfReturns_singleton (r : ℚ) : varianceOfReturns [r] = 0 := by
  simp [varianceOfReturns]

/-- Claim C8: the volatility percentage is 0 on histories yielding zero
or one simple return (length at most 2), and scaling every closing
price by a positive constant leaves the volatility unchanged, whatever
square-root function the float power implements. -/
theorem volatility_degenerate_and_scale_invariant (sq : ℚ → ℚ) (prices : List ℚ) (c : ℚ) :
    (prices.length ≤ 2 → volatilityOf sq prices = 0) ∧
    (0 < c → volatilityOf sq (prices.map (fun p => c * p)) = volatilityOf sq prices) := by
  constructor
  · intro hlen
    match prices, hlen with
    | [], _ => simp [volatilityOf, returnsOf, varianceOfReturns]
    | [a], _ => simp [volatilityOf, returnsOf, varianceOfReturns]
    | [a, b], _ =>
      show volatilityOf sq [a, b] = 0
      simp [volatilityOf, returnsOf, varianceOfReturns_singleton]
  · intro hc
    simp only [volatilityOf, returnsOf_map_mul c (ne_of_gt hc)]

/-- Witness for C8 on the two-point history `[1, 2]` scaled by 2. -/
theorem volatility_degenerate_and_scale_invariant_witness :
    volatilityOf (fun q => q) [1, 2] = 0 ∧
    volatilityOf (fun q => q) ([(1 : ℚ), 2].map (fun p => 2 * p)) =
      volatilityOf (fun q => q) [1, 2] :=
  ⟨(volatility_degenerate_and_scale_invariant (fun q => q) [1, 2] 2).1 (by norm_num),
   (volatility_degenerate_and_scale_invariant (fun q => q) [1, 2] 2).2 (by norm_num)⟩

/-! Section: Claim C10 -/

/-- The seed-only RSI formula of claim C10:
`100 - 100/(1 + (sum(gains)/periods)/(sum(losses)/periods))` over the
deltas of the (already truncated) price list, with the zero-loss guard
of line 81 — the Wilder smoothing loop contributes nothing when the
delta list is shorter than `periods`. -/
def rsiSeed (data : List ℚ) (periods : ℕ) : ℚ :=
  let ds := deltas data
  let ag := (gainsOf ds).sum / (periods : ℚ)
  let al := (lossesOf ds).sum / (periods : ℚ)
  if al = 0 then 100 else 100 - 100 / (1 + ag / al)

theorem rsiAvgs_of_short (data : List ℚ) (periods : ℕ)
    (h : (deltas data).length ≤ periods) :
    rsiAvgs data periods =
      ((gainsOf (deltas data)).sum / (periods : ℚ),
       (lossesOf (deltas data)).sum / (periods : ℚ)) := by
  have hg : (gainsOf (deltas data)).length ≤ periods := by
    simpa [gainsOf] using h
  have hl : (lossesOf (deltas data)).length ≤ periods := by
    simpa [lossesOf] using h
  simp [rsiAvgs, List.take_of_length_le hg, List.take_of_length_le hl,
    List.drop_eq_nil_of_le hg, List.drop_eq_nil_of_le hl]

theorem calc_rsi_eq_seed_of_short (l : List ℚ) (hlen : l.length ≤ 14) :
    ∀ x, calculate_rsi l 14 = some x → x = rsiSeed l 14 := by
  intro x hx
  have hd : (deltas l).length ≤ 14 := by
    rw [deltas_length]
    omega
  by_cases h : l.length < 14
  · simp [calculate_rsi, h] at hx
  · simp only [calculate_rsi, h, if_false, rsiAvgs_of_short l 14 hd] at hx
    simp only [rsiSeed]
    split at hx <;> rename_i hsplit <;> simp only [Option.some.injEq] at hx <;> subst hx
    · rw [if_pos hsplit]
    · rw [if_neg hsplit]

/-- Claim C10: `analyze_stock` truncates the price list to the last 14
points before calling `calculate_rsi`, so the delta list is shorter
than `periods` = 14, the Wilder smoothing loop body never runs on that
call path, and any defined result equals the seed-only formula. -/
theorem analyze_rsi_seed_only :
    (∀ data : List ℚ, (deltas (lastN 14 data)).length < 14) ∧
    (∀ (data : List ℚ) (x : ℚ), calculate_rsi (lastN 14 data) 14 = some x →
       x = rsiSeed (lastN 14 data) 14) ∧
    (∀ (sq : ℚ → ℚ) (scorer : String → ℚ) (scraped : List String) (symbol : String)
       (currentPrice : ℚ) (historical_data : List HistRec),
       (analyzeStock sq scorer scraped symbol currentPrice historical_data).rsi = 50 ∨
       (analyzeStock sq scorer scraped symbol currentPrice historical_data).rsi =
         rsiSeed ((lastN 14 (filterSym symbol historical_data)).map
           (fun h => h.closingPrice)) 14) := by
  refine ⟨?_, ?_, ?_⟩
  · intro data
    have := lastN_length_le 14 data
    rw [deltas_length]
    omega
  · intro data x
    exact calc_rsi_eq_seed_of_short (lastN 14 data) (lastN_length_le 14 data) x
  · intro sq scorer scraped symbol currentPrice historical_data
    have hrsi : (analyzeStock sq scorer scraped symbol currentPrice historical_data).rsi =
        (if (lastN 14 (filterSym symbol historical_data)).map
            (fun h => h.closingPrice) = [] then none
         else calculate_rsi ((lastN 14 (filterSym symbol historical_data)).map
            (fun h => h.closingPrice)) 14).getD 50 := rfl
    set cl := (lastN 14 (filterSym symbol historical_data)).map
      (fun h => h.closingPrice) with hcl
    have hcllen : cl.length ≤ 14 := by
      rw [hcl, List.length_map]
      exact lastN_length_le 14 _
    by_cases hnil : cl = []
    · left
      rw [hrsi, if_pos hnil]
      rfl
    · rw [hrsi, if_neg hnil]
      cases hc : calculate_rsi cl 14 with
      | none => left; rfl
      | some x =>
        right
        simpa using calc_rsi_eq_seed_of_short cl hcllen x hc

/-- Witness for C10 on a fifteen-point rising sequence: the truncation
keeps 14 points, the RSI is defined, and it equals the seed-only
formula. -/
theorem analyze_rsi_seed_only_witness :
    (deltas (lastN 14 (List.range 15 |>.map (fun n => (n : ℚ))))).length < 14 ∧
    ((100 : ℚ) = rsiSeed (lastN 14 (List.range 15 |>.map (fun n => (n : ℚ)))) 14) := by
  refine ⟨analyze_rsi_seed_only.1 _, analyze_rsi_seed_only.2.1 _ 100 ?_⟩
  norm_num [lastN, calculate_rsi, rsiAvgs, deltas, gainsOf, lossesOf, List.range,
    List.range.loop]

/-! Section: Claims C7 and C9 -/

theorem scanKeywords_eq_find (rmatch : String → String → Bool) :
    ∀ (ks : List String) (t : String),
      scanKeywords rmatch ks t = ks.find? (fun k => rmatch k t) := by
  intro ks t
  induction ks with
  | nil => rfl
  | cons k rest ih =>
    by_cases h : rmatch k t
    · simp [scanKeywords, h, List.find?_cons_of_pos]
    · simp only [Bool.not_eq_true] at h
      rw [scanKeywords, if_neg (by simp [h]), List.find?_cons_of_neg _ (by simp [h])]
      exact ih

theorem analyzeNewsWith_eq_filterMap (rmatch : String → String → Bool)
    (scorer : String → ℚ) (keywords : List String) :
    ∀ texts : List String,
      analyzeNewsWith rmatch scorer keywords texts =
        texts.filterMap (fun t =>
          (keywords.find? (fun k => rmatch k t)).map
            (fun k => (⟨t, scorer t, k⟩ : NewsItem))) := by
  intro texts
  induction texts with
  | nil => rfl
  | cons t rest ih =>
    rw [analyzeNewsWith, scanKeywords_eq_find, List.filterMap_cons]
    cases h : keywords.find? (fun k => rmatch k t) with
    | none => simpa [h] using ih
    | some k => simp [h, ih]

/-- Claim C7: `analyze_news` yields at most one item per headline; each
item is tagged with the first keyword pattern in `NEWS_KEYWORDS` order
that matches its text, and a headline matching no keyword contributes
nothing. -/
theorem analyze_news_first_match (rmatch : String → String → Bool)
    (scorer : String → ℚ) (texts : List String) :
    (analyze_news rmatch scorer texts).length ≤ texts.length ∧
    analyze_news rmatch scorer texts =
      texts.filterMap (fun t =>
        (NEWS_KEYWORDS.find? (fun k => rmatch k t)).map
          (fun k => (⟨t, scorer t, k⟩ : NewsItem))) ∧
    (∀ it ∈ analyze_news rmatch scorer texts,
      NEWS_KEYWORDS.find? (fun k => rmatch k it.text) = some it.keywords) := by
  have heq := analyzeNewsWith_eq_filterMap rmatch scorer NEWS_KEYWORDS texts
  refine ⟨?_, heq, ?_⟩
  · rw [analyze_news, heq]
    exact List.length_filterMap_le _ _
  · intro it hmem
    rw [analyze_news, heq, List.mem_filterMap] at hmem
    obtain ⟨t, _, hf⟩ := hmem
    cases hfind : NEWS_KEYWORDS.find? (fun k => rmatch k t) with
    | none => simp [hfind] at hf
    | some k =>
      rw [hfind] at hf
      have hf2 : ({ text := t, sentiment := scorer t, keywords := k } : NewsItem) = it :=
        Option.some.inj hf
      subst hf2
      exact hfind

/-- Witness for C7 with the exact-equality matcher on a singleton
headline equal to one keyword: exactly one item is produced and it is
tagged with that keyword. -/
theorem analyze_news_first_match_witness :
    (analyze_news (fun k t => k == t) (fun _ => 0) ["merger"]).length ≤ 1 ∧
    NEWS_KEYWORDS.find?
        (fun k => (fun k t => k == t) k
          ((⟨"merger", 0, "merger"⟩ : NewsItem).text)) =
      some ((⟨"merger", 0, "merger"⟩ : NewsItem).keywords) := by
  constructor
  · exact (analyze_news_first_match (fun k t => k == t) (fun _ => 0) ["merger"]).1
  · refine (analyze_news_first_match (fun k t => k == t) (fun _ => 0) ["merger"]).2.2
      ⟨"merger", 0, "merger"⟩ ?_
    rw [analyze_news, analyzeNewsWith]
    have hscan : scanKeywords (fun k t => k == t) NEWS_KEYWORDS "merger" = some "merger" := by
      rfl
    rw [hscan]
    exact List.mem_cons_self _ _

theorem scanKeywords_some_matched (rmatch : String → String → Bool) :
    ∀ (ks : List String) (t k : String),
      scanKeywords rmatch ks t = some k → rmatch k t = true := by
  intro ks t k h
  induction ks with
  | nil => simp [scanKeywords] at h
  | cons k0 rest ih =>
    rw [scanKeywords] at h
    split at h
    · cases h
      assumption
    · exact ih h

theorem scanPairs_eq_find_of_scanKeywords (rmatch : String → String → Bool) :
    ∀ (ps : List (String × String)) (t k : String),
      scanKeywords rmatch (ps.map Prod.fst) t = some k →
      scanPairs rmatch ps t = (ps.find? (fun p => p.1 == k)).map Prod.snd := by
  intro ps
  induction ps with
  | nil => intro t k h; simp [scanKeywords] at h
  | cons p rest ih =>
    intro t k h
    rw [List.map_cons, scanKeywords] at h
    by_cases hm : rmatch p.1 t
    · rw [if_pos hm] at h
      cases h
      rw [scanPairs, if_pos hm, List.find?_cons_of_pos _ (by simp)]
      rfl
    · rw [if_neg hm] at h
      have hk : rmatch k t = true := scanKeywords_some_matched rmatch _ t k h
      have hne : (p.1 == k) = false := by
        rw [beq_eq_false_iff_ne]
        intro hcontra
        rw [hcontra] at hm
        exact hm hk
      rw [scanPairs, if_neg hm, List.find?_cons_of_neg _ (by simp [hne]), ih t k h]

theorem scanPairs_none_of_no_match (rmatch : String → String → Bool) :
    ∀ (ps : List (String × String)) (t : String),
      (∀ p ∈ ps, rmatch p.1 t = false) → scanPairs rmatch ps t = none := by
  intro ps t h
  induction ps with
  | nil => rfl
  | cons p rest ih =>
    rw [scanPairs, if_neg (by simp [h p (List.mem_cons_self p rest)])]
    exact ih fun q hq => h q (List.mem_cons_of_mem p hq)

theorem news_keywords_are_table_keys :
    NEWS_KEYWORDS = NEWS_EXPLANATIONS.map Prod.fst := by
  rfl

theorem mem_analyze_news_scan (rmatch : String → String → Bool) (scorer : String → ℚ) :
    ∀ (texts : List String) (it : NewsItem), it ∈ analyze_news rmatch scorer texts →
      scanKeywords rmatch NEWS_KEYWORDS it.text = some it.keywords := by
  intro texts it hmem
  rw [analyze_news, analyzeNewsWith_eq_filterMap, List.mem_filterMap] at hmem
  obtain ⟨t, _, hf⟩ := hmem
  cases hfind : NEWS_KEYWORDS.find? (fun k => rmatch k t) with
  | none => simp [hfind] at hf
  | some k =>
    rw [hfind] at hf
    have hf2 : ({ text := t, sentiment := scorer t, keywords := k } : NewsItem) = it :=
      Option.some.inj hf
    subst hf2
    rw [scanKeywords_eq_find]
    exact hfind

/-- Claim C9: the rationale rendered for a matched news item is exactly
the `NEWS_EXPLANATIONS` entry of the keyword that matched it (the
rescans coincide because the table keys are the keyword list in the
same order), and a text matching no table key receives the generic
fallback rationale. -/
theorem explanation_matches_keyword_lookup :
    (∀ (rmatch : String → String → Bool) (scorer : String → ℚ) (texts : List String),
       ∀ it ∈ analyze_news rmatch scorer texts,
         explanationFor rmatch it.text = lookupExplanation it.keywords) ∧
    (∀ (rmatch : String → String → Bool) (text : String),
       (∀ p ∈ NEWS_EXPLANATIONS, rmatch p.1 text = false) →
       explanationFor rmatch text = fallback_explanation) := by
  constructor
  · intro rmatch scorer texts it hmem
    have hscan := mem_analyze_news_scan rmatch scorer texts it hmem
    rw [news_keywords_are_table_keys] at hscan
    have hpairs := scanPairs_eq_find_of_scanKeywords rmatch NEWS_EXPLANATIONS it.text
      it.keywords hscan
    rw [explanationFor, hpairs, lookupExplanation]
  · intro rmatch text hnone
    rw [explanationFor, scanPairs_none_of_no_match rmatch NEWS_EXPLANATIONS text hnone]

/-- Witness for C9: the item the exact matcher produces for the
headline "merger" gets the merger explanation, and a matcher that
matches nothing yields the fallback rationale. -/
theorem explanation_matches_keyword_lookup_witness :
    explanationFor (fun k t => k == t)
        ((⟨"merger", 0, "merger"⟩ : NewsItem).text) =
      lookupExplanation ((⟨"merger", 0, "merger"⟩ : NewsItem).keywords) ∧
    explanationFor (fun _ _ => false) "nothing relevant" = fallback_explanation := by
  constructor
  · refine explanation_matches_keyword_lookup.1 (fun k t => k == t) (fun _ => 0) ["merger"]
      ⟨"merger", 0, "merger"⟩ ?_
    rw [analyze_news, analyzeNewsWith]
    have hscan : scanKeywords (fun k t => k == t) NEWS_KEYWORDS "merger" = some "merger" := by
      rfl
    rw [hscan]
    exact List.mem_cons_self _ _
  · exact explanation_matches_keyword_lookup.2 (fun _ _ => false) "nothing relevant"
      (fun p _ => rfl)

end NepseBot
